import Mathlib

/-!
Verification of the write-it-down backend proxy.

A shallow embedding of the Express server in `server.js`: the `/api/chat`
relay, the `/admin/login` session issuer, the `verifyAdminSession`
middleware, and the `/admin/account` and `/admin/usage` readers, together
with proofs of the specified properties.

Strings manipulated by the server (headers, tokens, usernames) are
modelled as `List Char`; JavaScript library primitives that the code
calls (`Buffer.from(_, "base64")`, `String.prototype.split`, `parseInt`,
`Number.prototype.toFixed`) are modelled as executable Lean functions.
-/

/-- Strings as the server manipulates them: lists of characters. -/
abbrev Str := List Char

/-- A JSON value, used for payloads the server passes through untouched
(chat messages, upstream chat responses, the `rate_limit` object). -/
inductive JsonV where
  | null
  | bool (b : Bool)
  | num (q : ℚ)
  | str (s : String)
  | arr (elems : List JsonV)
  | obj (fields : List (String × JsonV))

/-! ## Base64 (model of the Node `Buffer.from` / `toString("base64")` calls) -/

/-- The base64 alphabet, in index order. -/
def base64Alphabet : List Char :=
  "ABCDEFGHIJKLMNOPQRSTUVWXYZabcdefghijklmnopqrstuvwxyz0123456789+/".toList

/-- The character encoding a 6-bit value. -/
def sextetChar (n : Nat) : Char := base64Alphabet.getD n '?'

/-- The 6-bit value of a base64 character, `none` if the character is not
in the alphabet. -/
def charSextet (c : Char) : Option Nat :=
  let i := base64Alphabet.indexOf c
  if i < 64 then some i else none

/-- Base64-encode a byte sequence (bytes as `Nat`s below 256), including
`'='` padding. -/
def base64EncodeBytes : List Nat → List Char
  | [] => []
  | [b1] =>
      [sextetChar (b1 / 4), sextetChar (b1 % 4 * 16), '=', '=']
  | [b1, b2] =>
      [sextetChar (b1 / 4), sextetChar (b1 % 4 * 16 + b2 / 16),
       sextetChar (b2 % 16 * 4), '=']
  | b1 :: b2 :: b3 :: rest =>
      sextetChar (b1 / 4) :: sextetChar (b1 % 4 * 16 + b2 / 16) ::
      sextetChar (b2 % 16 * 4 + b3 / 64) :: sextetChar (b3 % 64) ::
      base64EncodeBytes rest

/-- The bytes of a string (faithful to UTF-8 for ASCII strings, which is
the regime all session material lives in). -/
def strToBytes (s : Str) : List Nat := s.map Char.toNat

/-- Bytes back to a string. -/
def bytesToStr (l : List Nat) : Str := l.map Char.ofNat

/-- `Buffer.from(s).toString("base64")`. -/
def base64EncodeStr (s : Str) : Str := base64EncodeBytes (strToBytes s)

/-- Decode a sextet stream into bytes: full groups of four sextets give
three bytes, a trailing group of three gives two, of two gives one, and
a single dangling sextet (fewer than eight bits) gives nothing. -/
def decodeSextets : List Nat → List Nat
  | s1 :: s2 :: s3 :: s4 :: rest =>
      (s1 * 4 + s2 / 16) :: (s2 % 16 * 16 + s3 / 4) :: (s3 % 4 * 64 + s4) ::
      decodeSextets rest
  | [s1, s2, s3] => [s1 * 4 + s2 / 16, s2 % 16 * 16 + s3 / 4]
  | [s1, s2] => [s1 * 4 + s2 / 16]
  | _ => []

/-- The Node base64 decoder, `Buffer.from(s, "base64")`: total and
lenient — it never throws, requires no padding, and skips every
character outside the alphabet (including `'='`), then decodes the
remaining sextet stream. -/
def base64DecodeChars (s : List Char) : List Nat :=
  decodeSextets (s.filterMap charSextet)

/-- `Buffer.from(s, "base64").toString()`: a total function, because the
Node decoder cannot fail. -/
def base64DecodeStr (s : Str) : Str := bytesToStr (base64DecodeChars s)

theorem charSextet_sextetChar : ∀ n < 64, charSextet (sextetChar n) = some n := by
  decide

theorem charSextet_eq : charSextet '=' = none := by
  decide

theorem base64DecodeChars_encode :
    ∀ (l : List Nat), (∀ b ∈ l, b < 256) →
      base64DecodeChars (base64EncodeBytes l) = l
  | [], _ => by simp [base64EncodeBytes, base64DecodeChars, decodeSextets]
  | [b1], h => by
      have hb1 : b1 < 256 := h b1 (by simp)
      have h1 : b1 / 4 < 64 := by omega
      have h2 : b1 % 4 * 16 < 64 := by omega
      show base64DecodeChars
          [sextetChar (b1 / 4), sextetChar (b1 % 4 * 16), '=', '='] = [b1]
      simp only [base64DecodeChars, List.filterMap_cons,
        charSextet_sextetChar _ h1, charSextet_sextetChar _ h2,
        charSextet_eq, List.filterMap_nil]
      simp only [decodeSextets, List.cons.injEq, and_true]
      omega
  | [b1, b2], h => by
      have hb1 : b1 < 256 := h b1 (by simp)
      have hb2 : b2 < 256 := h b2 (by simp)
      have h1 : b1 / 4 < 64 := by omega
      have h2 : b1 % 4 * 16 + b2 / 16 < 64 := by omega
      have h3 : b2 % 16 * 4 < 64 := by omega
      show base64DecodeChars
          [sextetChar (b1 / 4), sextetChar (b1 % 4 * 16 + b2 / 16),
           sextetChar (b2 % 16 * 4), '='] = [b1, b2]
      simp only [base64DecodeChars, List.filterMap_cons,
        charSextet_sextetChar _ h1, charSextet_sextetChar _ h2,
        charSextet_sextetChar _ h3, charSextet_eq, List.filterMap_nil]
      simp only [decodeSextets, List.cons.injEq, and_true]
      omega
  | b1 :: b2 :: b3 :: rest, h => by
      have hb1 : b1 < 256 := h b1 (by simp)
      have hb2 : b2 < 256 := h b2 (by simp)
      have hb3 : b3 < 256 := h b3 (by simp)
      have ih := base64DecodeChars_encode rest
        (fun b hb => h b (by simp [hb]))
      have h1 : b1 / 4 < 64 := by omega
      have h2 : b1 % 4 * 16 + b2 / 16 < 64 := by omega
      have h3 : b2 % 16 * 4 + b3 / 64 < 64 := by omega
      have h4 : b3 % 64 < 64 := by omega
      show base64DecodeChars
          (sextetChar (b1 / 4) :: sextetChar (b1 % 4 * 16 + b2 / 16) ::
           sextetChar (b2 % 16 * 4 + b3 / 64) :: sextetChar (b3 % 64) ::
           base64EncodeBytes rest) = b1 :: b2 :: b3 :: rest
      simp only [base64DecodeChars, List.filterMap_cons,
        charSextet_sextetChar _ h1, charSextet_sextetChar _ h2,
        charSextet_sextetChar _ h3, charSextet_sextetChar _ h4]
      simp only [decodeSextets, List.cons.injEq]
      simp only [base64DecodeChars] at ih
      exact ⟨by omega, by omega, by omega, ih⟩
termination_by l => l.length

theorem char_ofNat_toNat (c : Char) : Char.ofNat c.toNat = c := by
  have h : Nat.isValidChar c.toNat := c.valid
  apply Char.eq_of_val_eq
  simp only [Char.ofNat, dif_pos h, Char.ofNatAux]
  apply UInt32.eq_of_toBitVec_eq
  apply BitVec.eq_of_toNat_eq
  simp [Char.toNat, UInt32.toNat]

theorem base64_roundtrip (s : Str) (hs : ∀ c ∈ s, c.toNat < 256) :
    base64DecodeStr (base64EncodeStr s) = s := by
  unfold base64DecodeStr base64EncodeStr
  rw [base64DecodeChars_encode (strToBytes s)
    (by intro b hb
        simp only [strToBytes, List.mem_map] at hb
        obtain ⟨c, hc, rfl⟩ := hb
        exact hs c hc)]
  simp only [bytesToStr, strToBytes, List.map_map]
  conv_rhs => rw [← List.map_id s]
  exact List.map_congr_left fun c _ => char_ofNat_toNat c

/-! ## JavaScript string primitives used by the server -/

/-- `String.prototype.split(sep)` for a one-character separator. -/
def splitOnChar (sep : Char) : Str → List Str
  | [] => [[]]
  | c :: rest =>
      if c = sep then [] :: splitOnChar sep rest
      else
        match splitOnChar sep rest with
        | [] => [[c]]
        | h :: t => (c :: h) :: t

/-- `String.prototype.startsWith(p)`. -/
def strStartsWith : Str → Str → Bool
  | _, [] => true
  | [], _ :: _ => false
  | c :: s, p :: ps => c == p && strStartsWith s ps

theorem splitOnChar_ne_nil (sep : Char) (l : Str) : splitOnChar sep l ≠ [] := by
  induction l with
  | nil => simp [splitOnChar]
  | cons c rest ih =>
      simp only [splitOnChar]
      split
      · simp
      · split
        · simp
        · simp

theorem splitOnChar_no_sep (sep : Char) (l : Str) (h : ∀ c ∈ l, c ≠ sep) :
    splitOnChar sep l = [l] := by
  induction l with
  | nil => rfl
  | cons c rest ih =>
      have hc : c ≠ sep := h c (by simp)
      simp only [splitOnChar, if_neg hc,
        ih (fun x hx => h x (by simp [hx]))]

theorem splitOnChar_append_sep (sep : Char) (a b : Str)
    (ha : ∀ c ∈ a, c ≠ sep) :
    splitOnChar sep (a ++ sep :: b) = a :: splitOnChar sep b := by
  induction a with
  | nil => simp [splitOnChar]
  | cons c rest ih =>
      have hc : c ≠ sep := ha c (by simp)
      have ih' := ih (fun x hx => ha x (by simp [hx]))
      simp only [List.cons_append, splitOnChar, if_neg hc, List.append_eq, ih']

theorem splitOnChar_headD (sep : Char) (l : Str) :
    (splitOnChar sep l).headD [] = l.takeWhile (fun c => !(c == sep)) := by
  induction l with
  | nil => rfl
  | cons c rest ih =>
      simp only [splitOnChar, List.takeWhile]
      by_cases hc : c = sep
      · subst hc
        simp
      · rw [if_neg hc]
        have hne := splitOnChar_ne_nil sep rest
        cases hsp : splitOnChar sep rest with
        | nil => exact absurd hsp hne
        | cons h t =>
            rw [hsp] at ih
            simp only [List.headD] at ih
            have hb : (c == sep) = false := beq_eq_false_iff_ne.2 hc
            simp [hb, ih]

theorem strStartsWith_append (p s : Str) : strStartsWith (p ++ s) p = true := by
  induction p with
  | nil => cases s <;> rfl
  | cons c ps ih => simp [strStartsWith, ih]

/-! ## Decimal rendering and JS `parseInt` -/

/-- The decimal digits of a natural number (the template-literal rendering
`${Date.now()}` the login handler uses). -/
def natToDigits (n : Nat) : List Char :=
  if h : n < 10 then [Char.ofNat (48 + n)]
  else natToDigits (n / 10) ++ [Char.ofNat (48 + n % 10)]
termination_by n
decreasing_by exact Nat.div_lt_self (by omega) (by omega)

/-- Value of a list of decimal digit characters. -/
def decVal (l : List Char) : Nat :=
  l.foldl (fun a c => a * 10 + (c.toNat - 48)) 0

/-- Value of a hexadecimal digit character, if any. -/
def hexDigitVal (c : Char) : Option Nat :=
  if c.isDigit then some (c.toNat - 48)
  else if 'a' ≤ c ∧ c ≤ 'f' then some (c.toNat - 87)
  else if 'A' ≤ c ∧ c ≤ 'F' then some (c.toNat - 55)
  else none

/-- Value of a list of hexadecimal digit characters. -/
def hexVal (l : List Char) : Nat :=
  l.foldl (fun a c => a * 16 + ((hexDigitVal c).getD 0)) 0

/-- Whitespace skipped by JS `parseInt`. -/
def jsWhitespace (c : Char) : Bool :=
  c = ' ' ∨ c = '\t' ∨ c = '\n' ∨ c = '\r' ∨ c = '\x0b' ∨ c = '\x0c'

/-- Longest decimal-digit prefix, `none` when empty (the NaN case). -/
def decPrefixVal (l : Str) : Option Nat :=
  let ds := l.takeWhile Char.isDigit
  if ds = [] then none else some (decVal ds)

/-- Longest hexadecimal-digit prefix, `none` when empty. -/
def hexPrefixVal (l : Str) : Option Nat :=
  let ds := l.takeWhile (fun c => (hexDigitVal c).isSome)
  if ds = [] then none else some (hexVal ds)

/-- The unsigned part of JS `parseInt`: a `0x`/`0X` prefix selects base 16,
otherwise the longest decimal digit prefix is read. -/
def parseIntNatPart : Str → Option Nat
  | '0' :: 'x' :: rest => hexPrefixVal rest
  | '0' :: 'X' :: rest => hexPrefixVal rest
  | l => decPrefixVal l

/-- JS `parseInt(s)` (radix unspecified): skip whitespace, read an optional
sign, then the number; `none` models `NaN`. -/
def parseIntJS (s : Str) : Option Int :=
  match s.dropWhile jsWhitespace with
  | '-' :: rest => (parseIntNatPart rest).map (fun n => -(n : Int))
  | '+' :: rest => (parseIntNatPart rest).map (fun n => (n : Int))
  | rest => (parseIntNatPart rest).map (fun n => (n : Int))

theorem natToDigits_isDigit (n : Nat) : ∀ c ∈ natToDigits n, c.isDigit = true := by
  induction n using Nat.strong_induction_on with
  | _ n ih =>
      intro c hc
      rw [natToDigits] at hc
      split at hc
      · next h =>
          simp only [List.mem_singleton] at hc
          subst hc
          interval_cases n <;> decide
      · next h =>
          rw [List.mem_append] at hc
          rcases hc with hc | hc
          · exact ih (n / 10) (Nat.div_lt_self (by omega) (by omega)) c hc
          · simp only [List.mem_singleton] at hc
            subst hc
            have h10 : n % 10 < 10 := Nat.mod_lt _ (by omega)
            interval_cases h' : n % 10 <;> decide

theorem toNat_ofNat_digit (d : Nat) (hd : d < 10) :
    (Char.ofNat (48 + d)).toNat = 48 + d := by
  interval_cases d <;> decide

theorem decVal_append (l : List Char) (c : Char) :
    decVal (l ++ [c]) = decVal l * 10 + (c.toNat - 48) := by
  simp [decVal, List.foldl_append]

theorem natToDigits_ne_nil (n : Nat) : natToDigits n ≠ [] := by
  rw [natToDigits]
  split <;> simp

theorem decVal_natToDigits (n : Nat) : decVal (natToDigits n) = n := by
  induction n using Nat.strong_induction_on with
  | _ n ih =>
      rw [natToDigits]
      split
      · next h =>
          simp only [decVal, List.foldl, toNat_ofNat_digit n h]
          omega
      · next h =>
          rw [decVal_append,
            ih (n / 10) (Nat.div_lt_self (by omega) (by omega)),
            toNat_ofNat_digit (n % 10) (Nat.mod_lt _ (by omega))]
          omega

theorem isDigit_not_jsWhitespace (c : Char) (h : c.isDigit = true) :
    jsWhitespace c = false := by
  simp only [Char.isDigit, decide_eq_true_eq] at h
  simp only [jsWhitespace, decide_eq_false_iff_not]
  rintro (rfl | rfl | rfl | rfl | rfl | rfl) <;> revert h <;> decide

theorem isDigit_ne_of (c : Char) (h : c.isDigit = true) :
    c ≠ '-' ∧ c ≠ '+' ∧ c ≠ 'x' ∧ c ≠ 'X' ∧ c ≠ ':' ∧ c ≠ ' ' := by
  simp only [Char.isDigit, decide_eq_true_eq] at h
  refine ⟨?_, ?_, ?_, ?_, ?_, ?_⟩ <;> rintro rfl <;> revert h <;> decide

theorem parseIntJS_natToDigits (n : Nat) :
    parseIntJS (natToDigits n) = some (n : Int) := by
  have hdig := natToDigits_isDigit n
  have hnil := natToDigits_ne_nil n
  have hdw : (natToDigits n).dropWhile jsWhitespace = natToDigits n := by
    cases hD : natToDigits n with
    | nil => rfl
    | cons d ds =>
        have hd : d.isDigit = true := hdig d (by rw [hD]; simp)
        rw [List.dropWhile_cons_of_neg]
        simp [isDigit_not_jsWhitespace d hd]
  have hnat : parseIntNatPart (natToDigits n) = some n := by
    have htw : (natToDigits n).takeWhile Char.isDigit = natToDigits n :=
      List.takeWhile_eq_self_iff.2 hdig
    have hdec : decPrefixVal (natToDigits n) = some n := by
      simp only [decPrefixVal, htw, decVal_natToDigits]
      rw [if_neg hnil]
    rw [parseIntNatPart.eq_def]
    split
    · next heq =>
        exfalso
        have hx : 'x' ∈ natToDigits n := by rw [heq]; simp
        exact (isDigit_ne_of 'x' (hdig 'x' hx)).2.2.1 rfl
    · next heq =>
        exfalso
        have hx : 'X' ∈ natToDigits n := by rw [heq]; simp
        exact (isDigit_ne_of 'X' (hdig 'X' hx)).2.2.2.1 rfl
    · exact hdec
  rw [parseIntJS.eq_def, hdw]
  split
  · next heq =>
      exfalso
      have hx : '-' ∈ natToDigits n := by rw [heq]; simp
      exact (isDigit_ne_of '-' (hdig '-' hx)).1 rfl
  · next heq =>
      exfalso
      have hx : '+' ∈ natToDigits n := by rw [heq]; simp
      exact (isDigit_ne_of '+' (hdig '+' hx)).2.1 rfl
  · rw [hnat]
    rfl

theorem natToDigits_no_colon (n : Nat) : ∀ c ∈ natToDigits n, c ≠ ':' :=
  fun c hc => (isDigit_ne_of c (natToDigits_isDigit n c hc)).2.2.2.2.1

theorem natToDigits_ascii (n : Nat) : ∀ c ∈ natToDigits n, c.toNat < 256 := by
  intro c hc
  have h := natToDigits_isDigit n c hc
  simp only [Char.isDigit, Bool.and_eq_true, decide_eq_true_eq] at h
  have h2 : c.val.toNat ≤ 57 := by
    have h57 := h.2
    rw [UInt32.le_def, BitVec.le_def] at h57
    simpa using h57
  simp only [Char.toNat]
  omega

/-! ## The chat relay (`POST /api/chat`) -/

/-- The configuration the chat relay reads from the environment. -/
structure ChatConfig where
  frontendApiKey : Str
  openrouterApiKey : Str
  apiUrl : Str
  model : Str

/-- The request body `{messages, temperature?, top_p?}`; `none` models an
absent (JSON-omitted) field. -/
structure ChatRequestBody where
  messages : JsonV
  temperature : Option ℚ
  top_p : Option ℚ

/-- The outbound `fetch` the relay performs: URL, bearer credential and
JSON body `{model, messages, temperature, top_p}`. -/
structure UpstreamChatRequest where
  url : Str
  authBearer : Str
  model : Str
  messages : JsonV
  temperature : ℚ
  top_p : ℚ

/-- What the upstream completion endpoint can come back with. -/
inductive UpstreamChatResult where
  | ok (body : JsonV)
  | httpError (status : Nat)
  | networkError

/-- The caller-visible body: either the upstream JSON passed through, or
an `{error: msg}` object. -/
inductive ChatResponseBody where
  | upstream (body : JsonV)
  | errorMsg (msg : String)

/-- An HTTP response from the chat route. -/
structure ChatResponse where
  status : Nat
  body : ChatResponseBody

/-- The body forwarded upstream (lines 44-56 of the source): the
configured model, the messages of the request, and `temperature`/`top_p`
defaulted to `0.8`/`1` exactly when the body omits them. -/
def chatUpstreamRequest (cfg : ChatConfig) (body : ChatRequestBody) :
    UpstreamChatRequest :=
  { url := cfg.apiUrl
    authBearer := cfg.openrouterApiKey
    model := cfg.model
    messages := body.messages
    temperature := body.temperature.getD 0.8
    top_p := body.top_p.getD 1 }

/-- `app.post("/api/chat")`. The `upstream` argument is the deterministic
environment the single `fetch` consults; the returned list records every
upstream call the handler makes, in order. -/
def chatHandler (cfg : ChatConfig) (xApiKey : Option Str)
    (body : ChatRequestBody)
    (upstream : UpstreamChatRequest → UpstreamChatResult) :
    List UpstreamChatRequest × ChatResponse :=
  match xApiKey with
  | none => ([], ⟨401, .errorMsg "Unauthorized"⟩)
  | some h =>
      if h = [] ∨ h ≠ cfg.frontendApiKey then
        ([], ⟨401, .errorMsg "Unauthorized"⟩)
      else
        let ureq := chatUpstreamRequest cfg body
        match upstream ureq with
        | .ok data => ([ureq], ⟨200, .upstream data⟩)
        | .httpError _ => ([ureq], ⟨500, .errorMsg "Internal server error"⟩)
        | .networkError => ([ureq], ⟨500, .errorMsg "Internal server error"⟩)

/-! ## Admin login and session verification -/

/-- 24 hours in milliseconds, the `maxAge` constant of the verifier. -/
def maxAgeMs : Int := 24 * 60 * 60 * 1000

/-- The session token the login handler issues:
`Buffer.from(username + ":" + Date.now()).toString("base64")`. -/
def loginToken (username : Str) (now : Nat) : Str :=
  base64EncodeStr (username ++ ':' :: natToDigits now)

/-- Response of `POST /admin/login`. -/
structure LoginResponse where
  status : Nat
  success : Bool
  token : Option Str
  message : Option String
  error : Option String
deriving DecidableEq

/-- `app.post("/admin/login")`: exact string equality against the two
configured values; on match a fresh token, otherwise 401. -/
def adminLogin (adminUsername adminPassword : Str) (now : Nat)
    (username password : Option Str) : LoginResponse :=
  if username = some adminUsername ∧ password = some adminPassword then
    { status := 200
      success := true
      token := some (loginToken (username.getD []) now)
      message := some "Login successful"
      error := none }
  else
    { status := 401
      success := false
      token := none
      message := none
      error := some "Invalid credentials" }

/-- Outcome of the `verifyAdminSession` middleware, before it is turned
into an HTTP response or a `next()` call. -/
inductive VerifyResult where
  | noToken
  | invalidToken
  | expired
  | authorized
deriving DecidableEq

/-- The token-checking core of `verifyAdminSession` (lines 118-133):
base64-decode, split on `":"`, take the first two fields, `parseInt` the
second, accept iff the username matches and the age is under 24h. A
failed `parseInt` (`NaN`) makes `tokenAge < maxAge` false, hence
`expired`. The decode is total — the Node `Buffer.from` call never
throws — so the `catch` block of the source (the `invalidToken`
constructor, kept to mirror that code path) is never reached. -/
def verifyToken (adminUsername : Str) (now : Int) (token : Str) :
    VerifyResult :=
  let decoded := base64DecodeStr token
  let parts := splitOnChar ':' decoded
  let username := parts.headD []
  match (parts[1]?).bind parseIntJS with
  | none => .expired
  | some ts =>
      if username = adminUsername ∧ now - ts < maxAgeMs then .authorized
      else .expired

/-- The full middleware including the `Authorization: Bearer <token>`
header check. -/
def verifyAdminSession (adminUsername : Str) (now : Int)
    (authHeader : Option Str) : VerifyResult :=
  match authHeader with
  | none => .noToken
  | some h =>
      if h = [] ∨ strStartsWith h ("Bearer ".toList) = false then .noToken
      else verifyToken adminUsername now ((splitOnChar ' ' h).getD 1 [])

/-- What the middleware does with its verdict: pass control to the route
(`next()`) or answer 401 with the distinguishing message. -/
inductive GuardOutcome where
  | proceed
  | reject (status : Nat) (msg : String)
deriving DecidableEq

/-- The externally visible behaviour of the middleware. -/
def adminGuardOutcome (adminUsername : Str) (now : Int)
    (authHeader : Option Str) : GuardOutcome :=
  match verifyAdminSession adminUsername now authHeader with
  | .noToken => .reject 401 "No valid session token"
  | .invalidToken => .reject 401 "Invalid session token"
  | .expired => .reject 401 "Invalid or expired session"
  | .authorized => .proceed

/-! ## Account and usage readers -/

/-- The `data` object of the upstream key-info response; every field may
be absent. -/
structure KeyInfoData where
  label : Option Str
  usage : Option ℚ
  limit : Option ℚ
  is_free_tier : Option Bool
  rate_limit : Option JsonV

/-- Result of the upstream `GET /api/v1/auth/key` call; `ok none` models
a success body without a `data` object (the optional-chained
`data.data?.…` path). -/
inductive KeyInfoResult where
  | ok (data : Option KeyInfoData)
  | httpError (status : Nat)
  | networkError

/-- JS truthiness of a JSON value. -/
def jsonTruthy : JsonV → Bool
  | .null => false
  | .bool b => b
  | .num q => decide (q ≠ 0)
  | .str s => decide (s ≠ "")
  | .arr _ => true
  | .obj _ => true

/-- `v || d` for an optional string. -/
def jsOrStr (v : Option Str) (d : Str) : Str :=
  match v with
  | some s => if s = [] then d else s
  | none => d

/-- `v || d` for an optional number. -/
def jsOrNum (v : Option ℚ) (d : ℚ) : ℚ :=
  match v with
  | some q => if q = 0 then d else q
  | none => d

/-- `v || d` for an optional boolean. -/
def jsOrBool (v : Option Bool) (d : Bool) : Bool :=
  match v with
  | some b => if b then b else d
  | none => d

/-- `v || d` for an optional JSON value. -/
def jsOrJson (v : Option JsonV) (d : JsonV) : JsonV :=
  match v with
  | some j => if jsonTruthy j then j else d
  | none => d

/-- The reshaped account object of `GET /admin/account`. -/
structure AccountInfo where
  label : Str
  usage : ℚ
  limit : ℚ
  is_free_tier : Bool
  rate_limit : JsonV

/-- Response of `GET /admin/account` (after the session guard); `success`
is `none` when the middleware rejected and no handler body was built. -/
structure AccountResponse where
  status : Nat
  success : Option Bool
  account : Option AccountInfo
  error : Option String

/-- `app.get("/admin/account")` (lines 151-163): each field defaulted
with `||` when the payload lacks it. -/
def adminAccountHandler (r : KeyInfoResult) : AccountResponse :=
  match r with
  | .ok d =>
      { status := 200
        success := some true
        account := some
          { label := jsOrStr (d.bind (fun x => x.label)) "Unknown".toList
            usage := jsOrNum (d.bind (fun x => x.usage)) 0
            limit := jsOrNum (d.bind (fun x => x.limit)) 0
            is_free_tier := jsOrBool (d.bind (fun x => x.is_free_tier)) false
            rate_limit := jsOrJson (d.bind (fun x => x.rate_limit)) (.obj []) }
        error := none }
  | _ =>
      { status := 500
        success := some false
        account := none
        error := some "Failed to fetch account info" }

/-- A JSON field that is sometimes a string, sometimes a number —
`percentage_used` is `(…).toFixed(2)` (a string) when `limit > 0` and the
number `0` otherwise. -/
inductive StrOrNum where
  | str (s : Str)
  | num (q : ℚ)
deriving DecidableEq

/-- Two-digit rendering of a value below 100. -/
def pad2 (m : Nat) : Str :=
  if m < 10 then '0' :: natToDigits m else natToDigits m

/-- `q.toFixed(2)` for a non-negative number: round half up to a
hundredth and print with exactly two decimals. -/
def toFixed2Mag (q : ℚ) : Str :=
  natToDigits ((⌊q * 100 + 1 / 2⌋).toNat / 100) ++
    '.' :: pad2 ((⌊q * 100 + 1 / 2⌋).toNat % 100)

/-- `q.toFixed(2)`: sign first, then ties-away-from-zero rounding of the
magnitude, as ECMA-262 specifies. -/
def toFixed2 (q : ℚ) : Str :=
  if q < 0 then '-' :: toFixed2Mag (-q) else toFixed2Mag q

/-- The usage object of `GET /admin/usage`. -/
structure UsageInfo where
  used : ℚ
  limit : ℚ
  remaining : ℚ
  percentage_used : StrOrNum
  currency : String
deriving DecidableEq

/-- Response of `GET /admin/usage`. -/
structure UsageResponse where
  status : Nat
  success : Option Bool
  usage : Option UsageInfo
  error : Option String
deriving DecidableEq

/-- `app.get("/admin/usage")` (lines 191-205): `remaining` floored at 0
with `Math.max`, `percentage_used` a 2-decimal string only when
`limit > 0`. -/
def adminUsageHandler (r : KeyInfoResult) : UsageResponse :=
  match r with
  | .ok d =>
      let usage := jsOrNum (d.bind (fun x => x.usage)) 0
      let limit := jsOrNum (d.bind (fun x => x.limit)) 0
      let remaining := limit - usage
      let percentageUsed : StrOrNum :=
        if 0 < limit then .str (toFixed2 (usage / limit * 100)) else .num 0
      { status := 200
        success := some true
        usage := some
          { used := usage
            limit := limit
            remaining := max 0 remaining
            percentage_used := percentageUsed
            currency := "USD" }
        error := none }
  | _ =>
      { status := 500
        success := some false
        usage := none
        error := some "Failed to fetch usage info" }

/-! ## Helper lemmas about the verifier and the token pipeline -/

/-- The condition the verifier enforces on a decoded token string: the
field before the first `":"` equals the admin username, and JS `parseInt`
of the field after it yields `ts` with `now − ts < 24h`. -/
def tokenAccepted (adminUsername : Str) (now : Int) (decoded : Str) : Prop :=
  (splitOnChar ':' decoded).headD [] = adminUsername ∧
  ∃ ts : Int, ((splitOnChar ':' decoded)[1]?).bind parseIntJS = some ts ∧
    now - ts < maxAgeMs

theorem verifyToken_authorized_iff (admin : Str) (now : Int) (token : Str) :
    verifyToken admin now token = .authorized ↔
      tokenAccepted admin now (base64DecodeStr token) := by
  unfold tokenAccepted
  rcases hp : ((splitOnChar ':' (base64DecodeStr token))[1]?).bind parseIntJS
      with _ | ts
  · simp only [verifyToken, hp]
    refine iff_of_false (fun h => by cases h) ?_
    rintro ⟨_, ts, hts, _⟩
    cases hts
  · simp only [verifyToken, hp]
    split
    · next hcond =>
        exact iff_of_true (by trivial) ⟨hcond.1, ts, rfl, hcond.2⟩
    · next hcond =>
        refine iff_of_false (fun h => by cases h) ?_
        rintro ⟨h1, ts', hts', h2⟩
        injection hts' with htss
        exact absurd ⟨h1, by rw [htss]; exact h2⟩ hcond

theorem loginToken_decode (u : Str) (hA : ∀ c ∈ u, c.toNat < 256) (ts : Nat) :
    base64DecodeStr (loginToken u ts) = u ++ ':' :: natToDigits ts := by
  apply base64_roundtrip
  intro c hc
  rcases List.mem_append.1 hc with h | h
  · exact hA c h
  · rcases List.mem_cons.1 h with rfl | h
    · decide
    · exact natToDigits_ascii ts c h

theorem verifyToken_loginToken (u : Str) (hA : ∀ c ∈ u, c.toNat < 256)
    (hC : ∀ c ∈ u, c ≠ ':') (now : Int) (ts : Nat) :
    verifyToken u now (loginToken u ts) =
      (if now - (ts : Int) < maxAgeMs then .authorized else .expired) := by
  simp only [verifyToken, loginToken_decode u hA ts,
    splitOnChar_append_sep ':' u (natToDigits ts) hC,
    splitOnChar_no_sep ':' (natToDigits ts) (natToDigits_no_colon ts)]
  simp only [List.headD_cons, List.getElem?_cons_succ, List.getElem?_cons_zero,
    Option.some_bind, parseIntJS_natToDigits ts]
  by_cases h : now - (ts : Int) < maxAgeMs <;> simp [h]

theorem takeWhile_ne_self_of_mem {p : Char → Bool} {u : Str} {c : Char}
    (hc : c ∈ u) (hp : p c = false) : u.takeWhile p ≠ u := by
  intro heq
  have := List.takeWhile_eq_self_iff.1 heq c hc
  rw [hp] at this
  cases this

theorem verifyToken_colon_username (u : Str) (hA : ∀ c ∈ u, c.toNat < 256)
    (hC : ':' ∈ u) (now : Int) (ts : Nat) :
    verifyToken u now (loginToken u ts) ≠ .authorized := by
  intro hauth
  have hacc := (verifyToken_authorized_iff u now (loginToken u ts)).1 hauth
  rw [loginToken_decode u hA ts] at hacc
  obtain ⟨hhead, _⟩ := hacc
  rw [splitOnChar_headD] at hhead
  set p : Char → Bool := fun c => !(c == ':') with hp
  have hpc : p ':' = false := by simp [hp]
  have htw : (u ++ ':' :: natToDigits ts).takeWhile p = u.takeWhile p := by
    rw [List.takeWhile_append]
    have hlen : ¬ ((u.takeWhile p).length = u.length) := by
      intro hlen
      have heq : u.takeWhile p = u :=
        (List.takeWhile_prefix p).eq_of_length hlen
      exact takeWhile_ne_self_of_mem hC hpc heq
    rw [if_neg hlen]
  rw [htw] at hhead
  exact takeWhile_ne_self_of_mem hC hpc hhead

theorem verifyAdminSession_bearer (admin : Str) (now : Int) (token : Str)
    (hs : ∀ c ∈ token, c ≠ ' ') :
    verifyAdminSession admin now (some ("Bearer ".toList ++ token)) =
      verifyToken admin now token := by
  simp only [verifyAdminSession]
  rw [if_neg]
  · have hsplit :
        splitOnChar ' ' ("Bearer ".toList ++ token) =
          "Bearer".toList :: splitOnChar ' ' token := by
      have h1 : ("Bearer ".toList : Str) ++ token =
          "Bearer".toList ++ ' ' :: token := by
        simp [show ("Bearer ".toList : Str) = "Bearer".toList ++ [' '] from rfl]
      rw [h1]
      exact splitOnChar_append_sep ' ' "Bearer".toList token (by decide)
    rw [hsplit, splitOnChar_no_sep ' ' token hs]
    rfl
  · rintro (h | h)
    · cases h
    · rw [strStartsWith_append "Bearer ".toList token] at h
      cases h

theorem jsOrNum_zero (v : Option ℚ) : jsOrNum v 0 = v.getD 0 := by
  rcases v with _ | q
  · rfl
  · by_cases h : q = 0 <;> simp [jsOrNum, h]

theorem jsOrBool_false (v : Option Bool) : jsOrBool v false = v.getD false := by
  rcases v with _ | b
  · rfl
  · cases b <;> rfl

theorem sextetChar_ne_space (n : Nat) : sextetChar n ≠ ' ' := by
  by_cases h : n < 64
  · exact (by decide : ∀ m < 64, sextetChar m ≠ ' ') n h
  · have hlen : (base64Alphabet).length ≤ n := by
      have : base64Alphabet.length = 64 := by decide
      omega
    simp only [sextetChar, List.getD_eq_getElem?_getD,
      List.getElem?_eq_none hlen, Option.getD_none]
    decide

theorem base64EncodeBytes_ne_space :
    ∀ (l : List Nat), ∀ c ∈ base64EncodeBytes l, c ≠ ' '
  | [], _, hc => by simp [base64EncodeBytes] at hc
  | [b1], c, hc => by
      simp only [base64EncodeBytes, List.mem_cons, List.not_mem_nil,
        or_false] at hc
      rcases hc with rfl | rfl | rfl | rfl
      · exact sextetChar_ne_space _
      · exact sextetChar_ne_space _
      · decide
      · decide
  | [b1, b2], c, hc => by
      simp only [base64EncodeBytes, List.mem_cons, List.not_mem_nil,
        or_false] at hc
      rcases hc with rfl | rfl | rfl | rfl
      · exact sextetChar_ne_space _
      · exact sextetChar_ne_space _
      · exact sextetChar_ne_space _
      · decide
  | b1 :: b2 :: b3 :: rest, c, hc => by
      have hshow : base64EncodeBytes (b1 :: b2 :: b3 :: rest) =
          sextetChar (b1 / 4) :: sextetChar (b1 % 4 * 16 + b2 / 16) ::
          sextetChar (b2 % 16 * 4 + b3 / 64) :: sextetChar (b3 % 64) ::
          base64EncodeBytes rest := rfl
      rw [hshow] at hc
      simp only [List.mem_cons] at hc
      rcases hc with rfl | rfl | rfl | rfl | hc
      · exact sextetChar_ne_space _
      · exact sextetChar_ne_space _
      · exact sextetChar_ne_space _
      · exact sextetChar_ne_space _
      · exact base64EncodeBytes_ne_space rest c hc
termination_by l => l.length

theorem loginToken_no_space (u : Str) (ts : Nat) :
    ∀ c ∈ loginToken u ts, c ≠ ' ' :=
  fun c hc => base64EncodeBytes_ne_space _ c hc

/-! ## The claims -/

/-- A concrete configuration used by witnesses. -/
def wCfg : ChatConfig :=
  { frontendApiKey := "front-key".toList
    openrouterApiKey := "sk-or".toList
    apiUrl := "https://openrouter.example/api".toList
    model := "test-model".toList }

/-- A concrete chat request body used by witnesses. -/
def wBody : ChatRequestBody :=
  { messages := .arr [.obj [("role", .str "user"), ("content", .str "hi")]]
    temperature := none
    top_p := none }

/-- Claim C1: a `/api/chat` request carrying the correct `x-api-key`
makes exactly one upstream call; an upstream success status yields HTTP
200 with the upstream JSON body unchanged; any upstream non-success
status yields HTTP 500 with exactly `{error: "Internal server error"}`,
so neither the upstream status nor its body reaches the caller. -/
theorem chat_relay_response_contract (cfg : ChatConfig)
    (body : ChatRequestBody)
    (upstream : UpstreamChatRequest → UpstreamChatResult)
    (hkey : cfg.frontendApiKey ≠ []) :
    (chatHandler cfg (some cfg.frontendApiKey) body upstream).1 =
      [chatUpstreamRequest cfg body] ∧
    (∀ d, upstream (chatUpstreamRequest cfg body) = .ok d →
      (chatHandler cfg (some cfg.frontendApiKey) body upstream).2 =
        ⟨200, .upstream d⟩) ∧
    (∀ s, upstream (chatUpstreamRequest cfg body) = .httpError s →
      (chatHandler cfg (some cfg.frontendApiKey) body upstream).2 =
        ⟨500, .errorMsg "Internal server error"⟩) := by
  have hcond :
      ¬(cfg.frontendApiKey = [] ∨ cfg.frontendApiKey ≠ cfg.frontendApiKey) := by
    simp [hkey]
  refine ⟨?_, ?_, ?_⟩
  · simp only [chatHandler]
    rw [if_neg hcond]
    rcases hq : upstream (chatUpstreamRequest cfg body) with d | s | _ <;>
      rfl
  · intro d hd
    simp only [chatHandler]
    rw [if_neg hcond, hd]
  · intro s hs
    simp only [chatHandler]
    rw [if_neg hcond, hs]

/-- Witness for C1 at a concrete configuration, body and upstream. -/
theorem chat_relay_response_contract_witness :
    (chatHandler wCfg (some wCfg.frontendApiKey) wBody
        (fun _ => .ok (.num 1))).2 = ⟨200, .upstream (.num 1)⟩ :=
  (chat_relay_response_contract wCfg wBody (fun _ => .ok (.num 1))
    (by decide)).2.1 (.num 1) rfl

/-- Claim C2: a `/api/chat` request whose `x-api-key` is absent or
differs from the configured shared secret is answered HTTP 401 with body
`{error: "Unauthorized"}`, and zero upstream calls are made. -/
theorem chat_unauthorized_no_upstream_call (cfg : ChatConfig)
    (xApiKey : Option Str) (body : ChatRequestBody)
    (upstream : UpstreamChatRequest → UpstreamChatResult)
    (h : xApiKey = none ∨ ∀ k, xApiKey = some k → k ≠ cfg.frontendApiKey) :
    chatHandler cfg xApiKey body upstream =
      ([], ⟨401, .errorMsg "Unauthorized"⟩) := by
  rcases xApiKey with _ | k
  · rfl
  · rcases h with h | h
    · cases h
    · have hk : k ≠ cfg.frontendApiKey := h k rfl
      simp only [chatHandler]
      rw [if_pos (Or.inr hk)]

/-- Witness for C2: a wrong key is rejected with no upstream call. -/
theorem chat_unauthorized_no_upstream_call_witness :
    chatHandler wCfg (some "wrong".toList) wBody (fun _ => .ok (.num 1)) =
      ([], ⟨401, .errorMsg "Unauthorized"⟩) :=
  chat_unauthorized_no_upstream_call wCfg (some "wrong".toList) wBody
    (fun _ => .ok (.num 1))
    (Or.inr (fun k hk => by cases hk; decide))

/-- Claim C3: for an authorized request the single forwarded upstream
body is `{model, messages, temperature, top_p}` where `temperature` is
`0.8` exactly when the request omits it and the supplied value otherwise,
`top_p` is `1` exactly when omitted and the supplied value otherwise, and
`messages` is forwarded unchanged. -/
theorem chat_forwarded_body_defaults (cfg : ChatConfig)
    (body : ChatRequestBody)
    (upstream : UpstreamChatRequest → UpstreamChatResult)
    (hkey : cfg.frontendApiKey ≠ []) :
    (chatHandler cfg (some cfg.frontendApiKey) body upstream).1 =
      [chatUpstreamRequest cfg body] ∧
    (chatUpstreamRequest cfg body).model = cfg.model ∧
    (chatUpstreamRequest cfg body).messages = body.messages ∧
    (body.temperature = none →
      (chatUpstreamRequest cfg body).temperature = 0.8) ∧
    (∀ t, body.temperature = some t →
      (chatUpstreamRequest cfg body).temperature = t) ∧
    (body.top_p = none → (chatUpstreamRequest cfg body).top_p = 1) ∧
    (∀ t, body.top_p = some t → (chatUpstreamRequest cfg body).top_p = t) := by
  have hcond :
      ¬(cfg.frontendApiKey = [] ∨ cfg.frontendApiKey ≠ cfg.frontendApiKey) := by
    simp [hkey]
  refine ⟨?_, rfl, rfl, ?_, ?_, ?_, ?_⟩
  · simp only [chatHandler]
    rw [if_neg hcond]
    rcases hq : upstream (chatUpstreamRequest cfg body) with d | s | _ <;>
      rfl
  · intro h
    simp [chatUpstreamRequest, h]
  · intro t h
    simp [chatUpstreamRequest, h]
  · intro h
    simp [chatUpstreamRequest, h]
  · intro t h
    simp [chatUpstreamRequest, h]

/-- Witness for C3: a supplied `temperature: 0.2` is forwarded as is. -/
theorem chat_forwarded_body_defaults_witness :
    (chatUpstreamRequest wCfg
        { messages := wBody.messages, temperature := some (1 / 5 : ℚ),
          top_p := none }).temperature = (1 / 5 : ℚ) :=
  (chat_forwarded_body_defaults wCfg
    { messages := wBody.messages, temperature := some (1 / 5 : ℚ),
      top_p := none }
    (fun _ => .ok .null) (by decide)).2.2.2.2.1 (1 / 5) rfl

/-- Claim C5: `/admin/login` with both credentials exactly matching the
configured values returns HTTP 200 `{success: true, token}` with the
token the base64 encoding of `username:now` — so the encoded timestamp
equals the call time itself, within one second of it; any mismatch
returns HTTP 401 `{success: false, error: "Invalid credentials"}` with no
token. -/
theorem admin_login_contract (adminU adminP : Str) (now : Nat) :
    (adminLogin adminU adminP now (some adminU) (some adminP) =
      { status := 200, success := true,
        token := some (loginToken adminU now),
        message := some "Login successful", error := none }) ∧
    ((∀ c ∈ adminU, c.toNat < 128) →
      base64DecodeStr (loginToken adminU now) =
        adminU ++ ':' :: natToDigits now ∧
      parseIntJS (natToDigits now) = some (now : Int)) ∧
    (∀ username password : Option Str,
      ¬(username = some adminU ∧ password = some adminP) →
      adminLogin adminU adminP now username password =
        { status := 401, success := false, token := none,
          message := none, error := some "Invalid credentials" }) := by
  refine ⟨?_, ?_, ?_⟩
  · simp [adminLogin]
  · intro hA
    exact ⟨loginToken_decode adminU
        (fun c hc => by have := hA c hc; omega) now,
      parseIntJS_natToDigits now⟩
  · intro u p h
    simp only [adminLogin]
    rw [if_neg h]

/-- Witness for C5: a wrong password is rejected with no token. -/
theorem admin_login_contract_witness :
    adminLogin "alice".toList "pw".toList 7 (some "alice".toList)
        (some "bob".toList) =
      { status := 401, success := false, token := none,
        message := none, error := some "Invalid credentials" } :=
  (admin_login_contract "alice".toList "pw".toList 7).2.2
    (some "alice".toList) (some "bob".toList) (by decide)

/-- Claim C9: a token issued by `/admin/login` for a `":"`-free ASCII
username is accepted by the verifier at any instant strictly less than
24 hours later; when the username contains `":"` the issued token is
never accepted. -/
theorem admin_session_roundtrip (u p : Str) (issuedAt : Nat) (now : Int)
    (hA : ∀ c ∈ u, c.toNat < 128) :
    ((∀ c ∈ u, c ≠ ':') → (issuedAt : Int) ≤ now →
      now - (issuedAt : Int) < maxAgeMs →
      ∀ tok, (adminLogin u p issuedAt (some u) (some p)).token = some tok →
        verifyToken u now tok = .authorized) ∧
    (':' ∈ u →
      ∀ tok, (adminLogin u p issuedAt (some u) (some p)).token = some tok →
        verifyToken u now tok ≠ .authorized) := by
  have hA' : ∀ c ∈ u, c.toNat < 256 := fun c hc => by
    have := hA c hc
    omega
  have htok : (adminLogin u p issuedAt (some u) (some p)).token =
      some (loginToken u issuedAt) := by
    simp [adminLogin]
  constructor
  · intro hC hle hlt tok htk
    rw [htok] at htk
    injection htk with htk
    subst htk
    rw [verifyToken_loginToken u hA' hC now issuedAt, if_pos hlt]
  · intro hC tok htk
    rw [htok] at htk
    injection htk with htk
    subst htk
    exact verifyToken_colon_username u hA' hC now issuedAt

/-- Witness for C9: a freshly issued token is accepted one second later. -/
theorem admin_session_roundtrip_witness :
    verifyToken "alice".toList 1000 (loginToken "alice".toList 0) =
      .authorized :=
  (admin_session_roundtrip "alice".toList "pw".toList 0 1000
    (by decide)).1 (by decide) (by decide) (by decide)
    (loginToken "alice".toList 0) (by simp [adminLogin])

/-- Claim C10: the verifier accepts tokens whose encoded timestamp lies
in the future — for any timestamp strictly greater than `now` the age
`now − ts` is negative, hence below 24 hours, so the verifier authorizes
and the guarded route proceeds; nothing bounds how far in the future the
timestamp may be. -/
theorem admin_verifier_accepts_future_timestamps (admin : Str) (now : Int)
    (ts : Nat) (hA : ∀ c ∈ admin, c.toNat < 128)
    (hC : ∀ c ∈ admin, c ≠ ':') (hfut : now < (ts : Int)) :
    verifyToken admin now (loginToken admin ts) = .authorized ∧
    adminGuardOutcome admin now
        (some ("Bearer ".toList ++ loginToken admin ts)) = .proceed := by
  have hA' : ∀ c ∈ admin, c.toNat < 256 := fun c hc => by
    have := hA c hc
    omega
  have h1 : verifyToken admin now (loginToken admin ts) = .authorized := by
    rw [verifyToken_loginToken admin hA' hC now ts,
      if_pos (by unfold maxAgeMs; omega)]
  refine ⟨h1, ?_⟩
  unfold adminGuardOutcome
  rw [verifyAdminSession_bearer admin now (loginToken admin ts)
    (loginToken_no_space admin ts), h1]

/-- Witness for C10: a token dated five milliseconds into the future is
accepted at time zero. -/
theorem admin_verifier_accepts_future_timestamps_witness :
    verifyToken "a".toList 0 (loginToken "a".toList 5) = .authorized :=
  (admin_verifier_accepts_future_timestamps "a".toList 0 5 (by decide)
    (by decide) (by decide)).1

/-- Evaluation rule for `toFixed2` on a non-negative value whose scaled
floor is known. -/
theorem toFixed2_eval (q : ℚ) (n : Nat) (hq : 0 ≤ q)
    (hfl : ⌊q * 100 + 1 / 2⌋ = (n : Int)) :
    toFixed2 q = natToDigits (n / 100) ++ '.' :: pad2 (n % 100) := by
  rw [toFixed2, if_neg (not_lt.2 hq), toFixed2Mag, hfl]
  simp

/-- Claim C7: on upstream success `/admin/usage` answers with
`used = usage`, `limit = limit`, `remaining = max(0, limit − usage)`,
`percentage_used` the 2-decimal string of `usage/limit × 100` when
`limit > 0` and the number `0` otherwise, and `currency = "USD"`; in
particular `{usage: 50, limit: 200}` gives `remaining = 150` and
`percentage_used = "25.00"`, and `{usage: 250, limit: 200}` gives
`remaining = 0`. -/
theorem admin_usage_arithmetic :
    (∀ (lbl : Option Str) (u l : ℚ) (ft : Option Bool) (rl : Option JsonV),
      adminUsageHandler (.ok (some ⟨lbl, some u, some l, ft, rl⟩)) =
        { status := 200, success := some true,
          usage := some
            { used := u, limit := l, remaining := max 0 (l - u),
              percentage_used :=
                if 0 < l then .str (toFixed2 (u / l * 100)) else .num 0,
              currency := "USD" },
          error := none }) ∧
    (adminUsageHandler
        (.ok (some ⟨none, some 50, some 200, none, none⟩)) =
      { status := 200, success := some true,
        usage := some
          { used := 50, limit := 200, remaining := 150,
            percentage_used := .str "25.00".toList, currency := "USD" },
        error := none }) ∧
    (adminUsageHandler
        (.ok (some ⟨none, some 250, some 200, none, none⟩)) =
      { status := 200, success := some true,
        usage := some
          { used := 250, limit := 200, remaining := 0,
            percentage_used := .str "125.00".toList, currency := "USD" },
        error := none }) := by
  have hgen : ∀ (lbl : Option Str) (u l : ℚ) (ft : Option Bool)
      (rl : Option JsonV),
      adminUsageHandler (.ok (some ⟨lbl, some u, some l, ft, rl⟩)) =
        { status := 200, success := some true,
          usage := some
            { used := u, limit := l, remaining := max 0 (l - u),
              percentage_used :=
                if 0 < l then .str (toFixed2 (u / l * 100)) else .num 0,
              currency := "USD" },
          error := none } := by
    intro lbl u l ft rl
    simp [adminUsageHandler, jsOrNum_zero]
  refine ⟨hgen, ?_, ?_⟩
  · rw [hgen]
    have h1 : ((50 : ℚ)) / 200 * 100 = 25 := by norm_num
    have h2 : toFixed2 ((50 : ℚ) / 200 * 100) = "25.00".toList := by
      rw [h1, toFixed2_eval 25 2500 (by norm_num)
        (by rw [Int.floor_eq_iff]; norm_num)]
      simp [natToDigits, pad2]
    rw [h2]
    norm_num
  · rw [hgen]
    have h1 : ((250 : ℚ)) / 200 * 100 = 125 := by norm_num
    have h2 : toFixed2 ((250 : ℚ) / 200 * 100) = "125.00".toList := by
      rw [h1, toFixed2_eval 125 12500 (by norm_num)
        (by rw [Int.floor_eq_iff]; norm_num)]
      simp [natToDigits, pad2]
    rw [h2]
    norm_num

/-- The account mapping of claim C8 read literally from the spec wording:
every field is taken from the payload and a default is substituted only
when the field is absent. -/
def specC8Account (d : Option KeyInfoData) : AccountInfo :=
  { label := (d.bind (fun x => x.label)).getD "Unknown".toList
    usage := (d.bind (fun x => x.usage)).getD 0
    limit := (d.bind (fun x => x.limit)).getD 0
    is_free_tier := (d.bind (fun x => x.is_free_tier)).getD false
    rate_limit := (d.bind (fun x => x.rate_limit)).getD (.obj []) }

/-- Claim C8, counterexample: a payload whose `label` is present but the
empty string is mapped by the code to `"Unknown"` (JS `||` treats the
empty string as falsy), while the claimed mapping keeps the present
value. -/
theorem admin_account_defaults_counterexample :
    ((adminAccountHandler
        (.ok (some ⟨some [], none, none, none, none⟩))).account.map
          (fun a => a.label)) = some "Unknown".toList ∧
    (specC8Account (some ⟨some [], none, none, none, none⟩)).label =
      ([] : Str) ∧
    ("Unknown".toList : Str) ≠ [] :=
  ⟨rfl, rfl, by decide⟩

/-- Claim C8, amended: on upstream success `/admin/account` maps
`{label, usage, limit, is_free_tier, rate_limit}` from the payload with
JS `||` defaulting: an absent field gets its default (`"Unknown"`, `0`,
`0`, `false`, `{}`), a present falsy field (empty-string label) is also
replaced by its default, and present truthy fields pass through
unchanged. -/
theorem admin_account_defaults :
    (∀ d : KeyInfoData,
      (adminAccountHandler (.ok (some d))).status = 200 ∧
      ∃ a, (adminAccountHandler (.ok (some d))).account = some a ∧
        (d.label = none → a.label = "Unknown".toList) ∧
        (d.label = some [] → a.label = "Unknown".toList) ∧
        (∀ l, d.label = some l → l ≠ [] → a.label = l) ∧
        a.usage = d.usage.getD 0 ∧
        a.limit = d.limit.getD 0 ∧
        a.is_free_tier = d.is_free_tier.getD false ∧
        (d.rate_limit = none → a.rate_limit = .obj []) ∧
        (∀ fields, d.rate_limit = some (.obj fields) →
          a.rate_limit = .obj fields)) ∧
    ((adminAccountHandler (.ok none)).account =
      some { label := "Unknown".toList, usage := 0, limit := 0,
             is_free_tier := false, rate_limit := .obj [] }) := by
  constructor
  · intro d
    refine ⟨rfl, _, rfl, ?_, ?_, ?_, ?_, ?_, ?_, ?_, ?_⟩
    · intro h
      simp [adminAccountHandler, jsOrStr, h]
    · intro h
      simp [adminAccountHandler, jsOrStr, h]
    · intro l h hl
      simp [adminAccountHandler, jsOrStr, h, hl]
    · simp [adminAccountHandler, jsOrNum_zero]
    · simp [adminAccountHandler, jsOrNum_zero]
    · simp [adminAccountHandler, jsOrBool_false]
    · intro h
      simp [adminAccountHandler, jsOrJson, h]
    · intro fields h
      simp [adminAccountHandler, jsOrJson, h, jsonTruthy]
  · rfl

/-- Witness for the amended C8: a present non-empty label passes
through. -/
theorem admin_account_defaults_witness :
    ∃ a, (adminAccountHandler
        (.ok (some ⟨some ['x'], none, none, none, none⟩))).account =
          some a ∧
      a.label = ['x'] := by
  obtain ⟨-, a, ha, -, -, hl, -, -, -, -, -⟩ :=
    admin_account_defaults.1 ⟨some ['x'], none, none, none, none⟩
  exact ⟨a, ha, hl ['x'] rfl (by decide)⟩
